import Mathlib

/-!
Shallow embedding of fish-shell's function registry (src/function.cpp):
the table of loaded functions, the tombstone set, autoload-triggered
loading, removal, copying, name enumeration and environment preparation.

Modelling conventions:
* `wcstring` is `String`; a possibly-NULL `const wchar_t *` is `Option String`.
* `std::unordered_map<wcstring, function_info_t>` is an association list
  `List (String × function_info_t)` with unique keys; `find` is `mapFind`,
  `insert` (which never overwrites an existing key) is `mapInsert`, and
  `erase` of a key is `mapErase`.
* `std::unordered_set<wcstring>` is a `List String` with `List.insert`.
* The external reserved-keyword table `parser_keywords_is_reserved` is a
  parameter `isRes : String → Bool`.
* The environment store read by `snapshot_vars` is a parameter
  `env : List (String × List String)` (variable name to list value).
* The autoload coordinator (autoload.cpp, not part of the sources) is
  modelled from the spec where needed; see `autoload_load` and `can_load`.
-/

/-- Embedding of `function_info_t` (function.h / function.cpp lines 119-139).
`definition_file` is `none` when the C++ pointer is NULL. -/
structure function_info_t where
  definition : String
  description : String
  definition_file : Option String
  definition_offset : Int
  named_arguments : List String
  inherit_vars : List (String × List String)
  is_autoload : Bool
  shadow_scope : Bool
deriving DecidableEq, Repr

/-- Embedding of `function_data_t` (the definition request passed to
`function_add`). `definition` is an `Option` because the C++ field is a
pointer checked by `CHECK(data.definition, )`. The `events` field is not
modelled: event handlers live on the external event bus. -/
structure function_data_t where
  name : String
  definition : Option String
  description : String
  named_arguments : List String
  inherit_vars : List String
  shadow_scope : Bool
deriving DecidableEq, Repr

/-- The module-level mutable state of function.cpp: `loaded_functions`
(line 33), `function_tombstones` (line 36), the coordinator's bookkeeping
of loaded names, and the kludgy `is_autoload` flag (line 53). -/
structure funcState where
  loaded_functions : List (String × function_info_t)
  function_tombstones : List String
  autoload_loaded : List String
  is_autoload : Bool
deriving DecidableEq, Repr

/-- The fresh registry at process start. -/
def initial_state : funcState := ⟨[], [], [], false⟩

/-- `unordered_map::find`, returning the mapped value. -/
def mapFind {α : Type} : List (String × α) → String → Option α
  | [], _ => none
  | (k, v) :: rest, key => if k = key then some v else mapFind rest key

/-- `unordered_map::insert`: a no-op when the key is already present
(it never overwrites), exactly as `std::unordered_map::insert` behaves
at function.cpp lines 157 and 279. -/
def mapInsert {α : Type} (m : List (String × α)) (k : String) (v : α) : List (String × α) :=
  match mapFind m k with
  | some _ => m
  | none => (k, v) :: m

/-- `unordered_map::erase` of a key. Keys are unique in the C++ map, so
removing every occurrence from the association list is equivalent. -/
def mapErase {α : Type} : List (String × α) → String → List (String × α)
  | [], _ => []
  | (k, v) :: rest, key => if k = key then mapErase rest key else (k, v) :: mapErase rest key

/-- Embedding of `snapshot_vars` (function.cpp lines 110-117): keep
exactly the requested names that resolve to a value, paired with the
value read now. (The C++ result is a `std::map` ordered by key; no
theorem below depends on the entry order.) -/
def snapshot_vars (env : List (String × List String)) (vars : List String) :
    List (String × List String) :=
  vars.filterMap (fun n => (mapFind env n).map (fun v => (n, v)))

/-- The `function_info_t` constructor from a `function_data_t`
(function.cpp lines 119-128). -/
def function_info_of_data (data : function_data_t) (defn : String)
    (filename : Option String) (def_offset : Int) (autoload : Bool)
    (env : List (String × List String)) : function_info_t :=
  { definition := defn
    description := data.description
    definition_file := filename
    definition_offset := def_offset
    named_arguments := data.named_arguments
    inherit_vars := snapshot_vars env data.inherit_vars
    is_autoload := autoload
    shadow_scope := data.shadow_scope }

/-- The copying `function_info_t` constructor (function.cpp lines 130-139):
same fields as the source record except the file, offset and autoload
flag, which are the arguments. `function_copy` passes NULL, 0, false;
`intern(NULL)` is NULL, hence `Option String` for the file. -/
def function_info_of_info (info : function_info_t) (filename : Option String)
    (def_offset : Int) (autoload : Bool) : function_info_t :=
  { definition := info.definition
    description := info.description
    definition_file := filename
    definition_offset := def_offset
    named_arguments := info.named_arguments
    inherit_vars := info.inherit_vars
    is_autoload := autoload
    shadow_scope := info.shadow_scope }

/-- Embedding of `function_remove_ignore_autoload` (function.cpp lines
187-204): erase the record if present, tombstoning autoloaded records
when `tombstone` is true. The event-bus notification `event_remove` is
external and not modelled. Returns whether a record was erased. -/
def function_remove_ignore_autoload (name : String) (tombstone : Bool)
    (s : funcState) : Bool × funcState :=
  match mapFind s.loaded_functions name with
  | none => (false, s)
  | some info =>
    (true,
      { s with
        loaded_functions := mapErase s.loaded_functions name
        function_tombstones :=
          if info.is_autoload && tombstone then s.function_tombstones.insert name
          else s.function_tombstones })

/-- Modelled from the spec: `autoload_t::unload` (autoload.cpp is not
among the sources) removes the coordinator's bookkeeping for the name so
a future load will re-source it (spec section 4.4). -/
def autoload_unload (name : String) (s : funcState) : funcState :=
  { s with autoload_loaded := s.autoload_loaded.erase name }

/-- Embedding of `function_remove` (function.cpp lines 206-208). -/
def function_remove (name : String) (s : funcState) : funcState :=
  let r := function_remove_ignore_autoload name true s
  if r.1 then autoload_unload name r.2 else r.2

/-- Embedding of `function_add` (function.cpp lines 141-164).
`filename` stands for `reader_current_filename()` read at call time and
`env` for the environment store read by `snapshot_vars`; the `CHECK`
macros turn a precondition violation (empty name, NULL definition) into
an early return. Event-handler registration is external and not
modelled. The record's autoload flag is read from the module-level
`is_autoload` flag. -/
def function_add (data : function_data_t) (filename : Option String)
    (definition_line_offset : Int) (env : List (String × List String))
    (s : funcState) : funcState :=
  if data.name = "" then s
  else
    match data.definition with
    | none => s
    | some defn =>
      let s1 := function_remove data.name s
      { s1 with
        loaded_functions :=
          mapInsert s1.loaded_functions data.name
            (function_info_of_data data defn filename definition_line_offset
              s1.is_autoload env) }

/-- Modelled from the spec: `autoload_t::load(name, true)` (autoload.cpp
is not among the sources). Resolving `name` against the search path
yields the body of the first `name + ".fish"` on the path, given here as
the finite map `files`; a hit sources the file, whose effect is the
`function_add` defining `name` (spec sections 4.4 and 6: the file's base
name is the function name), and records the name in the coordinator's
bookkeeping. A miss reports not-found (0). -/
def autoload_load (files : List (String × String))
    (env : List (String × List String)) (name : String) (s : funcState) :
    Int × funcState :=
  match mapFind files name with
  | none => (0, s)
  | some body =>
    let s1 := function_add
      { name := name, definition := some body, description := ""
        named_arguments := [], inherit_vars := [], shadow_scope := false }
      (some (String.append name ".fish")) 0 env s
    (1, { s1 with autoload_loaded := s1.autoload_loaded.insert name })

/-- The autoload branch of `load` (function.cpp lines 72-74): save the
module-level `is_autoload` flag, set it, run the coordinator, restore it. -/
def load_via_autoloader (files : List (String × String))
    (env : List (String × List String)) (name : String) (s : funcState) :
    Int × funcState :=
  let was_autoload := s.is_autoload
  let r := autoload_load files env name { s with is_autoload := true }
  (r.1, { r.2 with is_autoload := was_autoload })

/-- Embedding of the static `load` (function.cpp lines 57-76): tombstoned
names never load; a present non-autoloaded record short-circuits; all
other cases consult the autoload coordinator. -/
def load (files : List (String × String)) (env : List (String × List String))
    (s : funcState) (name : String) : Int × funcState :=
  if name ∈ s.function_tombstones then (0, s)
  else
    match mapFind s.loaded_functions name with
    | some info =>
      if info.is_autoload then load_via_autoloader files env name s
      else (0, s)
    | none => load_via_autoloader files env name s

/-- Embedding of `function_exists` (function.cpp lines 166-171): reserved
keywords are rejected before any load; otherwise `load` runs and table
membership is reported. The C++ `int` is used as a boolean. The returned
state is the registry state after the call. -/
def function_exists (isRes : String → Bool) (files : List (String × String))
    (env : List (String × List String)) (s : funcState) (cmd : String) :
    Bool × funcState :=
  if isRes cmd then (false, s)
  else
    let s1 := (load files env s cmd).2
    ((mapFind s1.loaded_functions cmd).isSome, s1)

/-- Embedding of `function_load` (function.cpp lines 173-178). -/
def function_load (isRes : String → Bool) (files : List (String × String))
    (env : List (String × List String)) (s : funcState) (cmd : String) :
    funcState :=
  if isRes cmd then s else (load files env s cmd).2

/-- Modelled from the spec: `autoload_t::can_load(cmd, vars)` (autoload.cpp
is not among the sources) answers, with no side effect, whether some
directory in the snapshot's view of the search path contains `cmd + ".fish"`
(spec section 4.4); the snapshot is given as the set of loadable names. -/
def can_load (snap : List String) (cmd : String) : Bool :=
  snap.contains cmd

/-- Embedding of `function_exists_no_autoload` (function.cpp lines
180-185): reserved keywords are rejected; otherwise table membership or
coordinator loadability. The source only reads state (find and the
coordinator's const query), so the embedding is a pure function of the
state. -/
def function_exists_no_autoload (isRes : String → Bool) (s : funcState)
    (cmd : String) (snap : List String) : Bool :=
  if isRes cmd then false
  else (mapFind s.loaded_functions cmd).isSome || can_load snap cmd

/-- Embedding of the static `function_get` (function.cpp lines 210-220):
NULL is `none`. -/
def function_get (s : funcState) (name : String) : Option function_info_t :=
  mapFind s.loaded_functions name

/-- Embedding of `function_get_definition` (function.cpp lines 222-229):
the C++ bool-plus-out-parameter pair is an `Option`. -/
def function_get_definition (s : funcState) (name : String) : Option String :=
  (function_get s name).map (fun f => f.definition)

/-- Embedding of `function_get_named_arguments` (function.cpp lines
231-235). -/
def function_get_named_arguments (s : funcState) (name : String) : List String :=
  match function_get s name with
  | some f => f.named_arguments
  | none => []

/-- Embedding of `function_get_inherit_vars` (function.cpp lines 237-241). -/
def function_get_inherit_vars (s : funcState) (name : String) :
    List (String × List String) :=
  match function_get s name with
  | some f => f.inherit_vars
  | none => []

/-- Embedding of `function_get_shadow_scope` (function.cpp lines 243-247). -/
def function_get_shadow_scope (s : funcState) (name : String) : Bool :=
  match function_get s name with
  | some f => f.shadow_scope
  | none => false

/-- Embedding of `function_copy` (function.cpp lines 270-283): when the
source record exists, insert a provenance-stripped duplicate (NULL file,
offset 0, autoload false) under the new name and report true; the
`insert` is the non-overwriting `mapInsert` and its outcome is not
inspected. -/
def function_copy (s : funcState) (name : String) (new_name : String) :
    Bool × funcState :=
  match mapFind s.loaded_functions name with
  | none => (false, s)
  | some info =>
    (true,
      { s with
        loaded_functions :=
          mapInsert s.loaded_functions new_name
            (function_info_of_info info none 0 false) })

/-- Embedding of `function_get_definition_file` (function.cpp lines
302-306): NULL both for an unknown name and for a record whose stored
file pointer is NULL. -/
def function_get_definition_file (s : funcState) (name : String) : Option String :=
  (function_get s name).bind (fun f => f.definition_file)

/-- Embedding of `function_is_autoloaded` (function.cpp lines 308-312).
The source returns `func->is_autoload` WITHOUT a null check, unlike every
sibling accessor; `none` embeds that unchecked dereference of the NULL
result of `function_get` (undefined behaviour in the C++). -/
def function_is_autoloaded (s : funcState) (name : String) : Option Bool :=
  (function_get s name).map (fun f => f.is_autoload)

/-- Embedding of `function_get_definition_offset` (function.cpp lines
314-318): `-1` sentinel for an unknown name. -/
def function_get_definition_offset (s : funcState) (name : String) : Int :=
  match function_get s name with
  | some f => f.definition_offset
  | none => -1

/-- Split a filename at its LAST dot, embedding `wcsrchr(fn, L'.')`
(function.cpp line 100): `some (base, suffix)` where `suffix` starts with
the last dot, `none` when there is no dot. -/
def lastDotSplit : List Char → Option (List Char × List Char)
  | [] => none
  | c :: cs =>
    match lastDotSplit cs with
    | some (base, suffix) => some (c :: base, suffix)
    | none => if c = '.' then some ([], c :: cs) else none

/-- One directory entry of the `autoload_names` scan (function.cpp lines
95-105): skip hidden entries unless `get_hidden`, then keep the stem of
entries whose last-dot suffix is exactly `.fish`. The insert is
`unordered_set::insert`. -/
def autoload_names_entry (get_hidden : Bool) (names : List String) (fn : String) :
    List String :=
  if get_hidden = false ∧ fn.data.head? = some '_' then names
  else
    match lastDotSplit fn.data with
    | some (base, suffix) =>
      if suffix = ['.', 'f', 'i', 's', 'h'] then names.insert (String.mk base)
      else names
    | none => names

/-- The inner `wreaddir` loop of `autoload_names` over one directory's
entries. -/
def autoload_names_dir (get_hidden : Bool) : List String → List String → List String
  | [], names => names
  | fn :: rest, names => autoload_names_dir get_hidden rest (autoload_names_entry get_hidden names fn)

/-- The outer loop of `autoload_names` over the search-path directories. -/
def autoload_names_go (get_hidden : Bool) : List (List String) → List String → List String
  | [], names => names
  | dir :: rest, names => autoload_names_go get_hidden rest (autoload_names_dir get_hidden dir names)

/-- Embedding of `autoload_names` (function.cpp lines 79-108). `dirs` is
the entry listing of each search-path directory that could be opened;
a missing or unreadable directory is skipped by the source (`continue`),
so it simply contributes no listing. -/
def autoload_names (dirs : List (List String)) (get_hidden : Bool) : List String :=
  autoload_names_go get_hidden dirs []

/-- The loop of `function_get_names` over `loaded_functions`
(function.cpp lines 290-298): skip empty and underscore-initial names
unless `get_hidden`. -/
def function_get_names_loaded (get_hidden : Bool) :
    List (String × function_info_t) → List String → List String
  | [], names => names
  | (name, _) :: rest, names =>
    if get_hidden = false ∧ (name = "" ∨ name.data.head? = some '_') then
      function_get_names_loaded get_hidden rest names
    else function_get_names_loaded get_hidden rest (names.insert name)

/-- Embedding of `function_get_names` (function.cpp lines 285-300):
the autoload scan's names joined with the loaded table's names. -/
def function_get_names (dirs : List (List String)) (s : funcState)
    (get_hidden : Bool) : List String :=
  function_get_names_loaded get_hidden s.loaded_functions (autoload_names dirs get_hidden)

/-- One environment mutation issued by `function_prepare_environment`.
`setOne` and `setEmpty` act at ENV_LOCAL | ENV_USER scope per the source
(function.cpp lines 333 and 336), as does the list-valued `set` for
inherited variables (line 342). -/
inductive EnvAction where
  | setArgv (argv : List String)
  | setOne (name : String) (val : String)
  | setEmpty (name : String)
  | set (name : String) (vals : List String)
deriving DecidableEq, Repr

/-- The named-argument loop of `function_prepare_environment`
(function.cpp lines 330-338): the cursor `arg` walks argv (NULL
terminated, so an exhausted argv stays exhausted) and advances only when
an element was consumed by `env_set_one`; otherwise `env_set_empty`. -/
def bindNamedArgs : List String → List String → List EnvAction
  | [], _ => []
  | n :: ns, [] => EnvAction.setEmpty n :: bindNamedArgs ns []
  | n :: ns, a :: args => EnvAction.setOne n a :: bindNamedArgs ns args

/-- Embedding of `function_prepare_environment` (function.cpp lines
324-344) as the sequence of environment mutations it issues: argv first,
then the named-argument bindings, then the inherited variables. (The
source guards the named loop with a non-emptiness test; on an empty
named-argument list the loop issues nothing, so the guard is redundant
and the unguarded loop is an exact embedding.) -/
def function_prepare_environment (s : funcState) (name : String)
    (argv : List String) (inherited_vars : List (String × List String)) :
    List EnvAction :=
  EnvAction.setArgv argv ::
    (bindNamedArgs (function_get_named_arguments s name) argv ++
      inherited_vars.map (fun p => EnvAction.set p.1 p.2))

/-- A registry call that a caller may issue after a removal: the
`exists`/`load` sequences of the tombstone claim. -/
inductive regOp where
  | opExists (cmd : String)
  | opLoad (cmd : String)
deriving DecidableEq, Repr

/-- The state after one registry call. -/
def runOp (isRes : String → Bool) (files : List (String × String))
    (env : List (String × List String)) (s : funcState) : regOp → funcState
  | regOp.opExists cmd => (function_exists isRes files env s cmd).2
  | regOp.opLoad cmd => function_load isRes files env s cmd

/-- The state after a sequence of registry calls. -/
def runOps (isRes : String → Bool) (files : List (String × String))
    (env : List (String × List String)) : List regOp → funcState → funcState
  | [], s => s
  | op :: ops, s => runOps isRes files env ops (runOp isRes files env s op)

/-- Absence protected by a tombstone: the invariant maintained by the
tombstone-suppression argument. -/
def absent_tombstoned (name : String) (s : funcState) : Prop :=
  name ∈ s.function_tombstones ∧ mapFind s.loaded_functions name = none

/-- A sample explicit definition request. -/
def data_a : function_data_t :=
  { name := "a", definition := some "echo hi", description := ""
    named_arguments := ["x", "y"], inherit_vars := [], shadow_scope := true }

/-- The record `data_a` produces when added from file `f.fish` at offset 7. -/
def info_a : function_info_t :=
  { definition := "echo hi", description := "", definition_file := some "f.fish"
    definition_offset := 7, named_arguments := ["x", "y"], inherit_vars := []
    is_autoload := false, shadow_scope := true }

/-- The state after adding `data_a` from a sourced file. -/
def state_a : funcState :=
  function_add data_a (some "f.fish") 7 [] initial_state

/-- A second sample definition request, for the name `b`. -/
def data_b : function_data_t :=
  { name := "b", definition := some "echo other", description := ""
    named_arguments := [], inherit_vars := [], shadow_scope := false }

/-- The record `data_b` produces when added with no current file. -/
def info_b : function_info_t :=
  { definition := "echo other", description := "", definition_file := none
    definition_offset := 0, named_arguments := [], inherit_vars := []
    is_autoload := false, shadow_scope := false }

/-- The state holding explicit records for both `a` and `b`. -/
def state_ab : funcState :=
  function_add data_b none 0 [] state_a

/-- A search path resolving the single autoloadable name `hello`. -/
def hello_files : List (String × String) := [("hello", "echo world")]

/-- The state after autoloading `hello` from `hello_files`. -/
def state_hello : funcState :=
  (load hello_files [] initial_state "hello").2

/-- The autoloaded record for `hello`. -/
def info_hello : function_info_t :=
  { definition := "echo world", description := "", definition_file := some "hello.fish"
    definition_offset := 0, named_arguments := [], inherit_vars := []
    is_autoload := true, shadow_scope := false }

/-- A concrete instance of the reserved-keyword table recognising `if`,
which the shell's keyword table reserves. -/
def reserved_if : String → Bool := fun c => decide (c = "if")

/-- A definition request for the reserved name `if` (the registry itself
never rejects a non-empty name). -/
def data_if : function_data_t :=
  { name := "if", definition := some "echo hi", description := ""
    named_arguments := [], inherit_vars := [], shadow_scope := false }

/-- The state after explicitly adding a record named `if`. -/
def state_with_if : funcState :=
  function_add data_if none 0 [] initial_state

theorem mapFind_erase {α : Type} (m : List (String × α)) (k j : String) :
    mapFind (mapErase m k) j = if j = k then none else mapFind m j := by
  induction m with
  | nil => simp [mapErase, mapFind]
  | cons p rest ih =>
    obtain ⟨k1, v1⟩ := p
    by_cases h1 : k1 = k
    · simp only [mapErase, if_pos h1, ih, mapFind]
      by_cases h2 : j = k
      · simp [h2]
      · have h3 : ¬ k1 = j := fun he => h2 (he.symm.trans h1)
        simp [h2, h3]
    · simp only [mapErase, if_neg h1, mapFind, ih]
      by_cases h2 : k1 = j
      · have h3 : ¬ j = k := fun he => h1 (h2.trans he)
        simp [h2, h3]
      · simp [h2]

theorem mapFind_insert_self {α : Type} (m : List (String × α)) (k : String) (v : α)
    (h : mapFind m k = none) : mapFind (mapInsert m k v) k = some v := by
  simp [mapInsert, h, mapFind]

theorem mapFind_insert_ne {α : Type} (m : List (String × α)) (k j : String) (v : α)
    (h : j ≠ k) : mapFind (mapInsert m k v) j = mapFind m j := by
  unfold mapInsert
  cases hf : mapFind m k with
  | some w => rfl
  | none =>
    have h2 : ¬ k = j := fun he => h he.symm
    simp [mapFind, h2]

theorem function_remove_find_self (n : String) (s : funcState) :
    mapFind (function_remove n s).loaded_functions n = none := by
  unfold function_remove function_remove_ignore_autoload
  cases h : mapFind s.loaded_functions n with
  | none => simpa using h
  | some info => simp [autoload_unload, mapFind_erase]

theorem absent_tombstoned_remove (name n : String) (s : funcState)
    (h : absent_tombstoned name s) :
    absent_tombstoned name (function_remove n s) := by
  obtain ⟨ht, hf⟩ := h
  unfold function_remove function_remove_ignore_autoload
  cases hfind : mapFind s.loaded_functions n with
  | none => exact ⟨ht, hf⟩
  | some info =>
    refine ⟨?_, ?_⟩
    · show name ∈ (if info.is_autoload && true then s.function_tombstones.insert n
        else s.function_tombstones)
      by_cases hb : info.is_autoload && true
      · rw [if_pos hb]
        exact List.mem_insert_of_mem ht
      · rw [if_neg hb]
        exact ht
    · show mapFind (mapErase s.loaded_functions n) name = none
      rw [mapFind_erase]
      by_cases he : name = n <;> simp [he, hf]

theorem absent_tombstoned_add (name : String) (data : function_data_t)
    (filename : Option String) (off : Int) (env : List (String × List String))
    (s : funcState) (hne : name ≠ data.name) (h : absent_tombstoned name s) :
    absent_tombstoned name (function_add data filename off env s) := by
  unfold function_add
  by_cases hn : data.name = ""
  · simpa [hn] using h
  · cases hd : data.definition with
    | none => simpa [hn, hd] using h
    | some defn =>
      have h1 := absent_tombstoned_remove name data.name s h
      refine ⟨?_, ?_⟩
      · simpa [hn, hd] using h1.1
      · simp only [hn, hd, if_neg]
        simpa [mapFind_insert_ne _ _ _ _ hne] using h1.2

theorem absent_tombstoned_autoload_load (name cmd : String)
    (files : List (String × String)) (env : List (String × List String))
    (s : funcState) (hne : name ≠ cmd) (h : absent_tombstoned name s) :
    absent_tombstoned name (autoload_load files env cmd s).2 := by
  unfold autoload_load
  cases hfiles : mapFind files cmd with
  | none => exact h
  | some body =>
    have h1 := absent_tombstoned_add name
      { name := cmd, definition := some body, description := ""
        named_arguments := [], inherit_vars := [], shadow_scope := false }
      (some (String.append cmd ".fish")) 0 env s hne h
    exact ⟨h1.1, h1.2⟩

theorem absent_tombstoned_fields (name : String) (s t : funcState)
    (hl : t.loaded_functions = s.loaded_functions)
    (ht : t.function_tombstones = s.function_tombstones)
    (h : absent_tombstoned name s) : absent_tombstoned name t := by
  unfold absent_tombstoned
  rw [hl, ht]
  exact h

theorem absent_tombstoned_load (name cmd : String)
    (files : List (String × String)) (env : List (String × List String))
    (s : funcState) (h : absent_tombstoned name s) :
    absent_tombstoned name (load files env s cmd).2 := by
  unfold load
  by_cases htomb : cmd ∈ s.function_tombstones
  · simpa [htomb] using h
  · have hne : name ≠ cmd := fun he => htomb (he ▸ h.1)
    have hvia : absent_tombstoned name (load_via_autoloader files env cmd s).2 := by
      unfold load_via_autoloader
      have hflag : absent_tombstoned name { s with is_autoload := true } := h
      have h2 := absent_tombstoned_autoload_load name cmd files env
        { s with is_autoload := true } hne hflag
      exact absent_tombstoned_fields name _ _ rfl rfl h2
    cases hfind : mapFind s.loaded_functions cmd with
    | none => simpa [htomb, hfind] using hvia
    | some info =>
      by_cases ha : info.is_autoload
      · simpa [htomb, hfind, ha] using hvia
      · simpa [htomb, hfind, ha] using h

theorem absent_tombstoned_runOp (name : String) (isRes : String → Bool)
    (files : List (String × String)) (env : List (String × List String))
    (s : funcState) (op : regOp) (h : absent_tombstoned name s) :
    absent_tombstoned name (runOp isRes files env s op) := by
  cases op with
  | opExists cmd =>
    unfold runOp function_exists
    by_cases hr : isRes cmd
    · simpa [hr] using h
    · simpa [hr] using absent_tombstoned_load name cmd files env s h
  | opLoad cmd =>
    unfold runOp function_load
    by_cases hr : isRes cmd
    · simpa [hr] using h
    · simpa [hr] using absent_tombstoned_load name cmd files env s h

theorem absent_tombstoned_runOps (name : String) (isRes : String → Bool)
    (files : List (String × String)) (env : List (String × List String))
    (ops : List regOp) (s : funcState) (h : absent_tombstoned name s) :
    absent_tombstoned name (runOps isRes files env ops s) := by
  induction ops generalizing s with
  | nil => exact h
  | cons op ops ih =>
    exact ih _ (absent_tombstoned_runOp name isRes files env s op h)

theorem lastDotSplit_cons_head (d : Char) (cs base suffix1 : List Char) (c : Char)
    (h : lastDotSplit (d :: cs) = some (base, suffix1)) (hb : base.head? = some c) :
    d = c := by
  simp only [lastDotSplit] at h
  cases hr : lastDotSplit cs with
  | some p =>
    obtain ⟨b1, s1⟩ := p
    rw [hr] at h
    simp only [Option.some.injEq, Prod.mk.injEq] at h
    obtain ⟨h1, h2⟩ := h
    rw [← h1] at hb
    simpa using hb
  | none =>
    rw [hr] at h
    by_cases hd : d = '.'
    · rw [if_pos hd] at h
      simp only [Option.some.injEq, Prod.mk.injEq] at h
      obtain ⟨h1, h2⟩ := h
      rw [← h1] at hb
      simp at hb
    · rw [if_neg hd] at h
      simp at h

theorem autoload_names_entry_no_hidden (names : List String) (fn x : String)
    (hn : ∀ y ∈ names, ¬ (y.data.head? = some '_'))
    (hx : x ∈ autoload_names_entry false names fn) :
    ¬ (x.data.head? = some '_') := by
  unfold autoload_names_entry at hx
  by_cases hh : (false = false ∧ fn.data.head? = some '_')
  · rw [if_pos hh] at hx
    exact hn x hx
  · rw [if_neg hh] at hx
    cases hsplit : lastDotSplit fn.data with
    | none =>
      rw [hsplit] at hx
      exact hn x hx
    | some p =>
      obtain ⟨base, sfx⟩ := p
      rw [hsplit] at hx
      have hx2 : x ∈ (if sfx = ['.', 'f', 'i', 's', 'h']
          then names.insert (String.mk base) else names) := hx
      by_cases hs : sfx = ['.', 'f', 'i', 's', 'h']
      · rw [if_pos hs] at hx2
        rcases List.mem_insert_iff.mp hx2 with he | hm
        · subst he
          intro hc
          have hb : base.head? = some '_' := hc
          cases hfn : fn.data with
          | nil =>
            rw [hfn] at hsplit
            simp [lastDotSplit] at hsplit
          | cons d cs =>
            rw [hfn] at hsplit
            have hd := lastDotSplit_cons_head d cs base sfx '_' hsplit hb
            exact hh ⟨rfl, by simp [hfn, hd]⟩
        · exact hn x hm
      · rw [if_neg hs] at hx2
        exact hn x hx2

theorem autoload_names_dir_no_hidden (entries : List String) (names : List String)
    (hn : ∀ y ∈ names, ¬ (y.data.head? = some '_')) :
    ∀ x ∈ autoload_names_dir false entries names, ¬ (x.data.head? = some '_') := by
  induction entries generalizing names with
  | nil => simpa [autoload_names_dir] using hn
  | cons fn rest ih =>
    intro x hx
    simp only [autoload_names_dir] at hx
    exact ih _ (fun y hy => autoload_names_entry_no_hidden names fn y hn hy) x hx

theorem autoload_names_go_no_hidden (dirs : List (List String)) (names : List String)
    (hn : ∀ y ∈ names, ¬ (y.data.head? = some '_')) :
    ∀ x ∈ autoload_names_go false dirs names, ¬ (x.data.head? = some '_') := by
  induction dirs generalizing names with
  | nil => simpa [autoload_names_go] using hn
  | cons dir rest ih =>
    intro x hx
    simp only [autoload_names_go] at hx
    exact ih _ (autoload_names_dir_no_hidden dir names hn) x hx

theorem function_get_names_loaded_no_hidden (l : List (String × function_info_t))
    (names : List String) (hn : ∀ y ∈ names, ¬ (y.data.head? = some '_')) :
    ∀ x ∈ function_get_names_loaded false l names, ¬ (x.data.head? = some '_') := by
  induction l generalizing names with
  | nil => simpa [function_get_names_loaded] using hn
  | cons p rest ih =>
    obtain ⟨name, info⟩ := p
    intro x hx
    have hx2 : x ∈ (if false = false ∧ (name = "" ∨ name.data.head? = some '_')
        then function_get_names_loaded false rest names
        else function_get_names_loaded false rest (names.insert name)) := hx
    by_cases hh : (false = false ∧ (name = "" ∨ name.data.head? = some '_'))
    · rw [if_pos hh] at hx2
      exact ih names hn x hx2
    · rw [if_neg hh] at hx2
      have hname : ¬ (name.data.head? = some '_') := fun hc => hh ⟨rfl, Or.inr hc⟩
      refine ih _ ?_ x hx2
      intro y hy
      rcases List.mem_insert_iff.mp hy with he | hm
      · subst he
        exact hname
      · exact hn y hm

theorem bindNamedArgs_eq (ns args : List String) :
    bindNamedArgs ns args =
      (ns.zip args).map (fun p => EnvAction.setOne p.1 p.2) ++
        (ns.drop args.length).map EnvAction.setEmpty := by
  induction ns generalizing args with
  | nil => simp [bindNamedArgs]
  | cons n ns ih =>
    cases args with
    | nil => simp [bindNamedArgs, ih]
    | cons a args => simp [bindNamedArgs, ih]

/-- C1 counterexample: with records for both `a` and `b` in the table,
`function_copy "a" "b"` leaves the state unchanged (no overwrite) yet
returns true, refuting the claim that success is false whenever a record
for the target already exists. -/
theorem function_copy_true_despite_target_present :
    (mapFind state_ab.loaded_functions "b").isSome = true ∧
    function_copy state_ab "a" "b" = (true, state_ab) := by decide

/-- C1 (amended): `function_copy` never overwrites an existing record for
the target name — an existing record for `b` survives unchanged — and its
success flag is true exactly when the source name is present, regardless
of whether the insertion actually happened. -/
theorem function_copy_no_overwrite (s : funcState) (a b : String) :
    (function_copy s a b).1 = (mapFind s.loaded_functions a).isSome ∧
    (∀ info, mapFind s.loaded_functions b = some info →
      mapFind (function_copy s a b).2.loaded_functions b = some info) := by
  unfold function_copy
  cases ha : mapFind s.loaded_functions a with
  | none => exact ⟨rfl, fun info hb => hb⟩
  | some infoa =>
    refine ⟨rfl, fun info hb => ?_⟩
    show mapFind (mapInsert s.loaded_functions b
      (function_info_of_info infoa none 0 false)) b = some info
    unfold mapInsert
    rw [hb]
    exact hb

/-- Witness for the amended C1 at a concrete state holding `a` and `b`. -/
theorem function_copy_no_overwrite_witness :
    mapFind state_ab.loaded_functions "b" = some info_b ∧
    mapFind (function_copy state_ab "a" "b").2.loaded_functions "b" = some info_b :=
  ⟨by decide, (function_copy_no_overwrite state_ab "a" "b").2 info_b (by decide)⟩

/-- C2 counterexample: after a successful copy of `a` (added from a file
at offset 7) to the absent name `b`, `function_get_definition_offset`
for `b` is 0, not the claimed -1. -/
theorem function_copy_offset_zero_cex :
    (function_copy state_a "a" "b").1 = true ∧
    function_get_definition_offset (function_copy state_a "a" "b").2 "b" = 0 ∧
    ¬ (function_get_definition_offset (function_copy state_a "a" "b").2 "b" = -1) := by
  decide

/-- C2 (amended): when the source is present and the target absent, the
copied record loses its provenance — definition file absent, definition
offset 0 (the value `function_copy` passes, not -1), autoload flag
false. -/
theorem function_copy_drops_provenance (s : funcState) (a b : String)
    (info : function_info_t) (ha : mapFind s.loaded_functions a = some info)
    (hb : mapFind s.loaded_functions b = none) :
    function_get_definition_file (function_copy s a b).2 b = none ∧
    function_get_definition_offset (function_copy s a b).2 b = 0 ∧
    function_is_autoloaded (function_copy s a b).2 b = some false := by
  have hfind : mapFind (function_copy s a b).2.loaded_functions b =
      some (function_info_of_info info none 0 false) := by
    unfold function_copy
    rw [ha]
    exact mapFind_insert_self _ _ _ hb
  refine ⟨?_, ?_, ?_⟩ <;>
    simp [function_get_definition_file, function_get_definition_offset,
      function_is_autoloaded, function_get, hfind, function_info_of_info]

/-- Witness for the amended C2 at a concrete sourced record. -/
theorem function_copy_drops_provenance_witness :
    mapFind state_a.loaded_functions "a" = some info_a ∧
    mapFind state_a.loaded_functions "b" = none ∧
    (function_get_definition_file (function_copy state_a "a" "b").2 "b" = none ∧
     function_get_definition_offset (function_copy state_a "a" "b").2 "b" = 0 ∧
     function_is_autoloaded (function_copy state_a "a" "b").2 "b" = some false) :=
  ⟨by decide, by decide,
    function_copy_drops_provenance state_a "a" "b" info_a (by decide) (by decide)⟩

/-- C3: at an unknown name every accessor with a checked lookup returns
its sentinel (none / empty / false / -1), but `function_is_autoloaded`
evaluates to `none` — the embedding of `return func->is_autoload` on the
NULL result of `function_get`, an unchecked dereference — instead of the
handled `false` the claim requires. This exhibits the code bug at the
concrete failing input `"missing"` on the fresh registry. -/
theorem unknown_name_accessor_behaviour :
    function_get initial_state "missing" = none ∧
    function_get_definition initial_state "missing" = none ∧
    function_get_named_arguments initial_state "missing" = [] ∧
    function_get_inherit_vars initial_state "missing" = [] ∧
    function_get_shadow_scope initial_state "missing" = false ∧
    function_get_definition_file initial_state "missing" = none ∧
    function_get_definition_offset initial_state "missing" = -1 ∧
    function_is_autoloaded initial_state "missing" = none := by decide

/-- C4: removing an autoloaded record tombstones its name, after which
`function_exists` for that name answers false and stays false under any
further sequence of exists/load calls, the file being unchanged, until an
explicit add: the tombstone makes `load` return before consulting the
autoload coordinator. -/
theorem removed_autoloaded_stays_absent (isRes : String → Bool)
    (files : List (String × String)) (env : List (String × List String))
    (s : funcState) (name : String) (info : function_info_t)
    (hfind : mapFind s.loaded_functions name = some info)
    (hauto : info.is_autoload = true) (ops : List regOp) :
    (function_exists isRes files env
      (runOps isRes files env ops (function_remove name s)) name).1 = false := by
  have h0 : absent_tombstoned name (function_remove name s) := by
    unfold function_remove function_remove_ignore_autoload
    rw [hfind]
    refine ⟨?_, ?_⟩
    · show name ∈ (if info.is_autoload && true then s.function_tombstones.insert name
        else s.function_tombstones)
      rw [hauto]
      exact List.mem_insert_self name s.function_tombstones
    · show mapFind (mapErase s.loaded_functions name) name = none
      simp [mapFind_erase]
  have h1 := absent_tombstoned_runOps name isRes files env ops _ h0
  unfold function_exists
  by_cases hr : isRes name
  · simp [hr]
  · rw [if_neg hr]
    have hload : load files env (runOps isRes files env ops (function_remove name s)) name
        = (0, runOps isRes files env ops (function_remove name s)) := by
      unfold load
      rw [if_pos h1.1]
    simp [hload, h1.2]

/-- Witness for C4: load `hello` from the search path, remove it, run an
exists/load/exists sequence, and observe exists still false. -/
theorem removed_autoloaded_stays_absent_witness :
    mapFind state_hello.loaded_functions "hello" = some info_hello ∧
    info_hello.is_autoload = true ∧
    (function_exists reserved_if hello_files []
      (runOps reserved_if hello_files []
        [regOp.opExists "hello", regOp.opLoad "hello", regOp.opExists "greet"]
        (function_remove "hello" state_hello)) "hello").1 = false :=
  ⟨by decide, rfl,
    removed_autoloaded_stays_absent reserved_if hello_files [] state_hello
      "hello" info_hello (by decide) rfl _⟩

/-- C5: for a reserved keyword, `function_exists` answers false with the
registry state returned untouched (it returns before `load` runs), and
`function_exists_no_autoload` likewise answers false, for every state,
search path and snapshot. -/
theorem reserved_keyword_short_circuit (isRes : String → Bool)
    (files : List (String × String)) (env : List (String × List String))
    (s : funcState) (snap : List String) (cmd : String) (h : isRes cmd = true) :
    function_exists isRes files env s cmd = (false, s) ∧
    function_exists_no_autoload isRes s cmd snap = false := by
  constructor <;> simp [function_exists, function_exists_no_autoload, h]

/-- Witness for C5 at the reserved keyword `if` on a state that could
otherwise autoload. -/
theorem reserved_keyword_short_circuit_witness :
    reserved_if "if" = true ∧
    (function_exists reserved_if hello_files [] state_hello "if"
        = (false, state_hello) ∧
      function_exists_no_autoload reserved_if state_hello "if" ["if"] = false) :=
  ⟨by decide,
    reserved_keyword_short_circuit reserved_if hello_files [] state_hello
      ["if"] "if" (by decide)⟩

/-- C6: with hidden names excluded, `function_get_names` never yields a
name whose first code point is an underscore: the directory scan filters
underscore-initial filenames and the loaded-table walk filters
underscore-initial (and empty) names. -/
theorem function_get_names_no_underscore (dirs : List (List String))
    (s : funcState) (name : String)
    (h : name ∈ function_get_names dirs s false) :
    ¬ (name.data.head? = some '_') := by
  refine function_get_names_loaded_no_hidden s.loaded_functions
    (autoload_names dirs false) ?_ name h
  exact autoload_names_go_no_hidden dirs [] (by simp)

/-- Witness for C6: `ok` is enumerated from a directory also holding a
hidden file, and does not start with an underscore. -/
theorem function_get_names_no_underscore_witness :
    "ok" ∈ function_get_names [["ok.fish", "_hidden.fish"]] initial_state false ∧
    ¬ ("ok".data.head? = some '_') :=
  ⟨by decide,
    function_get_names_no_underscore [["ok.fish", "_hidden.fish"]] initial_state
      "ok" (by decide)⟩

/-- C7 counterexample: the claim's biconditional fails on a reserved
keyword that sits in the table: after explicitly adding a record named
`if`, `function_exists_no_autoload` still answers false although the
name is in the loaded table. -/
theorem exists_no_autoload_in_table_cex :
    reserved_if "if" = true ∧
    (mapFind state_with_if.loaded_functions "if").isSome = true ∧
    function_exists_no_autoload reserved_if state_with_if "if" [] = false := by
  decide

/-- C7 (amended): `function_exists_no_autoload` performs no state change
(the source only reads the table and asks the coordinator's const query,
so its embedding is a pure function of the state) and returns true iff
the name is NOT a reserved keyword and (it is in the loaded table or the
coordinator could autoload it from the snapshot). -/
theorem exists_no_autoload_characterization (isRes : String → Bool)
    (s : funcState) (cmd : String) (snap : List String) :
    function_exists_no_autoload isRes s cmd snap =
      (!(isRes cmd) && ((mapFind s.loaded_functions cmd).isSome
        || can_load snap cmd)) := by
  cases h : isRes cmd <;> simp [function_exists_no_autoload, h]

/-- C8: immediately after `function_add` of a valid request (non-empty
name, present definition), `function_get_definition` returns exactly the
request's definition, `function_get_named_arguments` the request's named
arguments, and `function_get_shadow_scope` the request's shadow-scope
flag. -/
theorem add_then_get_roundtrip (data : function_data_t) (filename : Option String)
    (off : Int) (env : List (String × List String)) (s : funcState) (d : String)
    (hname : data.name ≠ "") (hdef : data.definition = some d) :
    function_get_definition (function_add data filename off env s) data.name
        = some d ∧
    function_get_named_arguments (function_add data filename off env s) data.name
        = data.named_arguments ∧
    function_get_shadow_scope (function_add data filename off env s) data.name
        = data.shadow_scope := by
  have hadd : function_add data filename off env s =
      { function_remove data.name s with
        loaded_functions :=
          mapInsert (function_remove data.name s).loaded_functions data.name
            (function_info_of_data data d filename off
              (function_remove data.name s).is_autoload env) } := by
    unfold function_add
    rw [if_neg hname, hdef]
  have hfind : mapFind (function_add data filename off env s).loaded_functions
      data.name = some (function_info_of_data data d filename off
        (function_remove data.name s).is_autoload env) := by
    rw [hadd]
    exact mapFind_insert_self _ _ _ (function_remove_find_self data.name s)
  refine ⟨?_, ?_, ?_⟩ <;>
    simp [function_get_definition, function_get_named_arguments,
      function_get_shadow_scope, function_get, hfind, function_info_of_data]

/-- Witness for C8 at the concrete request `data_a`. -/
theorem add_then_get_roundtrip_witness :
    data_a.name ≠ "" ∧ data_a.definition = some "echo hi" ∧
    (function_get_definition (function_add data_a (some "f.fish") 7 [] initial_state)
        data_a.name = some "echo hi" ∧
      function_get_named_arguments
        (function_add data_a (some "f.fish") 7 [] initial_state) data_a.name
        = data_a.named_arguments ∧
      function_get_shadow_scope
        (function_add data_a (some "f.fish") 7 [] initial_state) data_a.name
        = data_a.shadow_scope) :=
  ⟨by decide, rfl,
    add_then_get_roundtrip data_a (some "f.fish") 7 [] initial_state "echo hi"
      (by decide) rfl⟩

/-- C9: `function_prepare_environment` sets argv, then binds the declared
named arguments in declaration order to successive argv elements while
they remain — the zip consumes each argv element at most once — and binds
every named argument left over once argv is exhausted to the empty list,
before setting the inherited variables. -/
theorem prepare_environment_binds_in_order (s : funcState) (name : String)
    (argv : List String) (inherited_vars : List (String × List String)) :
    function_prepare_environment s name argv inherited_vars =
      EnvAction.setArgv argv ::
        (((function_get_named_arguments s name).zip argv).map
            (fun p => EnvAction.setOne p.1 p.2) ++
          ((function_get_named_arguments s name).drop argv.length).map
            EnvAction.setEmpty ++
          inherited_vars.map (fun p => EnvAction.set p.1 p.2)) := by
  unfold function_prepare_environment
  rw [bindNamedArgs_eq]

/-- C10: `load` on a name whose table record is not marked autoloaded
returns 0 with the state — table, tombstones and coordinator bookkeeping —
completely unchanged: the explicit definition is never consulted against
or replaced by the autoload coordinator. -/
theorem load_skips_explicit_definition (files : List (String × String))
    (env : List (String × List String)) (s : funcState) (name : String)
    (info : function_info_t)
    (hfind : mapFind s.loaded_functions name = some info)
    (hauto : info.is_autoload = false) :
    load files env s name = (0, s) := by
  unfold load
  by_cases ht : name ∈ s.function_tombstones
  · rw [if_pos ht]
  · rw [if_neg ht, hfind]
    simp [hauto]

/-- Witness for C10: the explicit record for `a` survives a load attempt
even though the search path offers a file for `a`. -/
theorem load_skips_explicit_definition_witness :
    mapFind state_a.loaded_functions "a" = some info_a ∧
    info_a.is_autoload = false ∧
    load [("a", "stale body")] [] state_a "a" = (0, state_a) :=
  ⟨by decide, rfl,
    load_skips_explicit_definition [("a", "stale body")] [] state_a "a" info_a
      (by decide) rfl⟩
